import Mathlib

/-!
Verification of the task-manager skill engine.

The store is modelled as a `List Task`; timestamps are integers counting
seconds (UTC).  Each skill is a function from the store to a pair of its
result and the store after the call, mirroring how the Python functions
thread one `Session` through a read / compute / optional write-back pass.
-/

namespace TaskMgr

/-- A task record (`models.py`, class `Task`).  `due_date` and `description`
are nullable columns; `priority` is an `int`; timestamps are seconds. -/
structure Task where
  id : Nat
  title : String
  description : Option String
  status : String
  due_date : Option Int
  priority : Int
  created_at : Int
  updated_at : Int
deriving DecidableEq, Repr

/-! ### Prioritization skill (`skills/priority.py`, `auto_prioritize_tasks`) -/

/-- The priority the loop body computes for one task:
`diff = (due_date - now).total_seconds()`, then the band ladder
`< 86400 → 5`, `< 259200 → 4`, `< 604800 → 3`, else keep `task.priority`.
A task with no due date is skipped (`if task.due_date:`), keeping its
priority. -/
def newPriority (now : Int) (t : Task) : Int :=
  match t.due_date with
  | none => t.priority
  | some due =>
    let diff := due - now
    if diff < 86400 then 5
    else if diff < 259200 then 4
    else if diff < 604800 then 3
    else t.priority

/-- Effect of one loop iteration on one stored task.  The query selects
`Task.status != "completed"`, so completed tasks are never touched; a
selected task is written back with the computed priority (the write is a
no-op when the computed priority equals the stored one). -/
def prioritizeTask (now : Int) (t : Task) : Task :=
  if t.status = "completed" then t
  else { t with priority := newPriority now t }

/-- `updated_count` is incremented exactly when the task was selected and
`new_priority != task.priority`. -/
def taskChanged (now : Int) (t : Task) : Bool :=
  decide (t.status ≠ "completed") && decide (newPriority now t ≠ t.priority)

/-- `auto_prioritize_tasks`: returns the update count and the store after
the commit. -/
def auto_prioritize_tasks (now : Int) (tasks : List Task) : Nat × List Task :=
  (tasks.countP (taskChanged now), tasks.map (prioritizeTask now))

/-- The per-task banding the spec states for a non-completed task, relating
the stored task `t` to its post-call state `t2`. -/
def bandPriority (now : Int) (t t2 : Task) : Prop :=
  t.status ≠ "completed" →
    (t.due_date = none → t2.priority = t.priority) ∧
    ∀ d, t.due_date = some d →
      (d - now < 86400 → t2.priority = 5) ∧
      (86400 ≤ d - now ∧ d - now < 259200 → t2.priority = 4) ∧
      (259200 ≤ d - now ∧ d - now < 604800 → t2.priority = 3) ∧
      (604800 ≤ d - now → t2.priority = t.priority)

lemma auto_prioritize_snd (now : Int) (tasks : List Task) :
    (auto_prioritize_tasks now tasks).2 = tasks.map (prioritizeTask now) := rfl

lemma bandPriority_prioritizeTask (now : Int) (t : Task) :
    bandPriority now t (prioritizeTask now t) := by
  intro hs
  constructor
  · intro hd
    simp [prioritizeTask, newPriority, hd, hs]
  · intro d hd
    simp only [prioritizeTask, if_neg hs, newPriority, hd]
    refine ⟨fun h => by simp [h], fun h => ?_, fun h => ?_, fun h => ?_⟩
    · rw [if_neg (by omega), if_pos (by omega)]
    · rw [if_neg (by omega), if_neg (by omega), if_pos (by omega)]
    · rw [if_neg (by omega), if_neg (by omega), if_neg (by omega)]

lemma taskChanged_eq_priority_ne (now : Int) (t : Task) :
    taskChanged now t = decide ((prioritizeTask now t).priority ≠ t.priority) := by
  by_cases hs : t.status = "completed"
  · simp [taskChanged, prioritizeTask, hs]
  · simp only [taskChanged, prioritizeTask, if_neg hs]
    simp [hs]

/-- C1.  For every non-completed task, prioritize (with one `now` for the
whole pass) sets priority 5 below the 24h bound (overdue included), 4 in
[24h, 3d), 3 in [3d, 7d), and keeps the priority at ≥ 7d or with no due
date; the returned count is the number of tasks whose priority changed. -/
theorem prioritize_bands_and_count (now : Int) (tasks : List Task) :
    (∀ p ∈ tasks.zip (auto_prioritize_tasks now tasks).2, bandPriority now p.1 p.2) ∧
    (auto_prioritize_tasks now tasks).1 =
      ((tasks.zip (auto_prioritize_tasks now tasks).2).filter
        (fun p => decide (p.1.priority ≠ p.2.priority))).length := by
  constructor
  · intro p hp
    rw [auto_prioritize_snd] at hp
    have : tasks.zip (tasks.map (prioritizeTask now)) =
        tasks.map (fun a => (a, prioritizeTask now a)) := by
      have := List.zip_map' (id : Task → Task) (prioritizeTask now) tasks
      simpa using this
    rw [this] at hp
    obtain ⟨a, _, rfl⟩ := List.mem_map.mp hp
    exact bandPriority_prioritizeTask now a
  · rw [auto_prioritize_snd]
    have hz : tasks.zip (tasks.map (prioritizeTask now)) =
        tasks.map (fun a => (a, prioritizeTask now a)) := by
      have := List.zip_map' (id : Task → Task) (prioritizeTask now) tasks
      simpa using this
    rw [hz, List.filter_map, List.length_map, ← List.countP_eq_length_filter]
    show tasks.countP (taskChanged now) = _
    apply List.countP_congr
    intro t _
    simp [taskChanged_eq_priority_ne, ne_comm]

/-- C7.  Prioritize is idempotent: rerunning it on its own output with the
same captured `now` reports 0 updates and leaves every task unchanged. -/
theorem prioritize_idempotent (now : Int) (tasks : List Task) :
    auto_prioritize_tasks now (auto_prioritize_tasks now tasks).2 =
      (0, (auto_prioritize_tasks now tasks).2) := by
  have hfix : ∀ t : Task, prioritizeTask now (prioritizeTask now t) = prioritizeTask now t := by
    intro t
    by_cases hs : t.status = "completed"
    · simp [prioritizeTask, hs]
    · simp only [prioritizeTask, if_neg hs]
      cases hd : t.due_date with
      | none => simp [newPriority, hd]
      | some d =>
        simp only [newPriority, hd]
        by_cases h1 : d - now < 86400
        · simp [h1]
        · by_cases h2 : d - now < 259200
          · simp [h1, h2]
          · by_cases h3 : d - now < 604800 <;> simp [h1, h2, h3]
  have hunchanged : ∀ t : Task, taskChanged now (prioritizeTask now t) = false := by
    intro t
    rw [taskChanged_eq_priority_ne, hfix]
    by_cases hs : t.status = "completed"
    · simp [prioritizeTask, hs]
    · simp [prioritizeTask, if_neg hs]
  simp only [auto_prioritize_tasks, List.map_map, List.countP_map, Prod.mk.injEq]
  constructor
  · rw [List.countP_eq_zero]
    intro t _
    simpa [Function.comp] using hunchanged t
  · exact List.map_congr_left fun a _ => hfix a

/-! ### Cleanup skill (`helper/cleanup.py`, `archive_completed_tasks`) -/

/-- The loop's deletion test.  The query keeps `status == "completed"`,
then the body deletes when `(now - updated_at).days >= days_old`.
`timedelta.days` floors the total seconds over 86400 toward negative
infinity, i.e. `Int.fdiv`. -/
def shouldArchive (now days_old : Int) (t : Task) : Bool :=
  decide (t.status = "completed") &&
    decide (days_old ≤ Int.fdiv (now - t.updated_at) 86400)

/-- `archive_completed_tasks`: returns the deletion count and the store
after the commit (deleted rows removed, order of survivors kept). -/
def archive_completed_tasks (now days_old : Int) (tasks : List Task) :
    Nat × List Task :=
  ((tasks.filter (shouldArchive now days_old)).length,
   tasks.filter (fun t => !shouldArchive now days_old t))

lemma shouldArchive_iff (now days_old : Int) (t : Task) :
    shouldArchive now days_old t =
      (decide (t.status = "completed") &&
        decide (86400 * days_old ≤ now - t.updated_at)) := by
  simp only [shouldArchive]
  congr 1
  rw [Int.fdiv_eq_ediv _ (by norm_num : (0:Int) ≤ 86400)]
  simp only [decide_eq_decide]
  omega

/-- C2.  For every non-negative `days_old`, cleanup deletes exactly the
completed tasks whose `updated_at` is at least `days_old` days before
`now` (boundary included), keeps every other task, and returns the number
of deleted tasks; with `days_old = 0` (given that no stored `updated_at`
lies in the future) it deletes all and only the completed tasks. -/
theorem cleanup_deletes_exactly (now days_old : Int) (tasks : List Task)
    (hd : 0 ≤ days_old) :
    (archive_completed_tasks now days_old tasks).2 =
      tasks.filter (fun t => !(decide (t.status = "completed") &&
        decide (86400 * days_old ≤ now - t.updated_at))) ∧
    (archive_completed_tasks now days_old tasks).1 =
      (tasks.filter (fun t => decide (t.status = "completed") &&
        decide (86400 * days_old ≤ now - t.updated_at))).length ∧
    ((∀ t ∈ tasks, t.updated_at ≤ now) →
      (archive_completed_tasks now 0 tasks).2 =
        tasks.filter (fun t => !decide (t.status = "completed"))) := by
  refine ⟨?_, ?_, ?_⟩
  · show tasks.filter _ = _
    exact List.filter_congr fun t _ => by rw [shouldArchive_iff now days_old]
  · show (tasks.filter _).length = _
    rw [List.filter_congr fun t _ => shouldArchive_iff now days_old t]
  · intro hpast
    show tasks.filter _ = _
    refine List.filter_congr fun t ht => ?_
    rw [shouldArchive_iff now 0]
    have h2 : decide ((86400 : Int) * 0 ≤ now - t.updated_at) = true := by
      have := hpast t ht
      simp only [decide_eq_true_eq]
      omega
    rw [h2, Bool.and_true]

/-- A ten-days-old completed task (`tests/test_skills.py`,
`test_cleanup_skill`, with `now = 864000`). -/
def oldDone : Task :=
  { id := 1, title := "Old", description := none, status := "completed",
    due_date := none, priority := 1, created_at := 0, updated_at := 0 }

/-- A one-day-old completed task from the same test. -/
def newDone : Task :=
  { id := 2, title := "New", description := none, status := "completed",
    due_date := none, priority := 1, created_at := 0, updated_at := 777600 }

/-- Witness for C2: at `now = 864000` (ten days), `days_old = 7`, the
ten-days-old completed task is deleted and the one-day-old one survives. -/
theorem cleanup_deletes_exactly_witness :
    (archive_completed_tasks 864000 7 [oldDone, newDone]).2 = [newDone] ∧
    (archive_completed_tasks 864000 7 [oldDone, newDone]).1 = 1 := by
  have h := cleanup_deletes_exactly 864000 7 [oldDone, newDone] (by norm_num)
  refine ⟨?_, ?_⟩
  · rw [h.1]; decide
  · rw [h.2.1]; decide

/-! ### Search skill (`skills/search.py`, `advanced_search`) -/

/-- Substring test on character lists: some suffix of `l` starts with `q`. -/
def charsContain (q : List Char) : List Char → Bool
  | [] => q.isEmpty
  | c :: cs => q.isPrefixOf (c :: cs) || charsContain q cs

/-- Modelled from the spec: the Task Store's containment operator
(`Task.title.contains(query)`); the database backend (`database.py`) is
not under `src/`.  Per the spec it is a case-sensitive substring test
with no normalization, tokenization or fuzzy matching. -/
def strContains (s q : String) : Bool := charsContain q.data s.data

/-- Modelled from the spec: containment applied to the nullable
`description` column.  A NULL column never matches — SQL `NULL LIKE x`
is NULL, which the WHERE clause drops — even for the empty query. -/
def optContains (s : Option String) (q : String) : Bool :=
  match s with
  | none => false
  | some s => strContains s q

/-- `advanced_search`: rows whose title or description contains the query;
the store is not mutated. -/
def advanced_search (q : String) (tasks : List Task) : List Task × List Task :=
  (tasks.filter (fun t => strContains t.title q || optContains t.description q),
   tasks)

/-- The "Buy Milk" task of `tests/test_skills.py`, `test_search_skill`. -/
def buyMilkTask : Task :=
  { id := 1, title := "Buy Milk", description := some "From the store",
    status := "todo", due_date := none, priority := 1,
    created_at := 0, updated_at := 0 }

/-- The "Work" task of the same test. -/
def workTask : Task :=
  { id := 2, title := "Work", description := some "On the project",
    status := "todo", due_date := none, priority := 1,
    created_at := 0, updated_at := 0 }

/-- C4.  Search returns exactly the tasks whose title or description
contains the query as a (case-sensitive, per the spec-modelled store
operator) substring; concretely, searching "Milk" over the tasks titled
"Buy Milk" and "Work" returns exactly the "Buy Milk" task. -/
theorem search_returns_exactly_matches (q : String) (tasks : List Task) (t : Task) :
    (t ∈ (advanced_search q tasks).1 ↔
      t ∈ tasks ∧ (strContains t.title q || optContains t.description q) = true) ∧
    (advanced_search "Milk" [buyMilkTask, workTask]).1 = [buyMilkTask] := by
  constructor
  · simp [advanced_search, List.mem_filter]
  · decide

/-- A task with a NULL description. -/
def noDescTask : Task :=
  { id := 3, title := "Plain", description := none, status := "todo",
    due_date := none, priority := 1, created_at := 0, updated_at := 0 }

/-- C10.  A task with a NULL description is returned iff its title contains
the query: the description conjunct is false for every query, the empty
one included. -/
theorem search_null_description (q : String) (tasks : List Task) (t : Task)
    (hdesc : t.description = none) :
    (t ∈ (advanced_search q tasks).1 ↔ t ∈ tasks ∧ strContains t.title q = true) ∧
    optContains t.description q = false := by
  constructor
  · simp [advanced_search, List.mem_filter, optContains, hdesc]
  · simp [optContains, hdesc]

/-- Witness for C10, at the empty query: the NULL-description task is
still returned only through its title (which the empty string matches). -/
theorem search_null_description_witness :
    (noDescTask ∈ (advanced_search "" [noDescTask]).1 ↔
      noDescTask ∈ [noDescTask] ∧ strContains noDescTask.title "" = true) ∧
    optContains noDescTask.description "" = false :=
  search_null_description "" [noDescTask] noDescTask rfl

/-! ### Daily-brief skill (`skills/daily_brief.py`, `get_daily_brief`) -/

/-- The WHERE clause: `Task.status != "completed"` and
`Task.due_date <= today_end` with `today_end = now + timedelta(days=1)`.
A NULL `due_date` fails the SQL `<=` and is excluded. -/
def briefSelected (now : Int) (t : Task) : Bool :=
  decide (t.status ≠ "completed") &&
    (match t.due_date with
     | none => false
     | some d => decide (d ≤ now + 86400))

/-- Modelled from the spec: the store's `ORDER BY due_date` ascending
(`.order_by(Task.due_date)`; the database backend is not under `src/`).
Rows with a NULL due date are placed first, which never matters for the
brief: its WHERE clause has already discarded them. -/
def dueAscendB (a b : Task) : Bool :=
  match a.due_date, b.due_date with
  | some x, some y => decide (x ≤ y)
  | none, _ => true
  | some _, none => false

/-- `dueAscendB` as a relation, for `List.insertionSort`. -/
def dueAscend (a b : Task) : Prop := dueAscendB a b = true

instance : DecidableRel dueAscend :=
  fun a b => inferInstanceAs (Decidable (dueAscendB a b = true))

instance : IsTotal Task dueAscend := by
  constructor
  intro a b
  unfold dueAscend dueAscendB
  rcases a.due_date with _ | x <;> rcases b.due_date with _ | y <;> simp <;> omega

instance : IsTrans Task dueAscend := by
  constructor
  intro a b c hab hbc
  unfold dueAscend dueAscendB at *
  rcases ha : a.due_date with _ | x
  · rcases hc : c.due_date with _ | z <;> simp
  · rcases hb : b.due_date with _ | y
    · rw [ha, hb] at hab
      simp at hab
    · rcases hc : c.due_date with _ | z
      · rw [hb, hc] at hbc
        simp at hbc
      · rw [ha, hb] at hab
        rw [hb, hc] at hbc
        simp at hab hbc ⊢
        omega

/-- One line of the brief:
`f"- [{task.priority}] {task.title} ({due_str})"` with
`due_str = "Overdue!" if task.due_date and task.due_date < now else "Due today"`. -/
def briefLine (now : Int) (t : Task) : String :=
  "- [" ++ toString t.priority ++ "] " ++ t.title ++ " (" ++
    (match t.due_date with
     | some d => if d < now then "Overdue!" else "Due today"
     | none => "Due today") ++ ")\n"

/-- `get_daily_brief`: selects, sorts ascending by due date, and renders
either the fixed all-caught-up sentence or header plus one line per task.
The store is not mutated. -/
def get_daily_brief (now : Int) (tasks : List Task) : String × List Task :=
  let sel := List.insertionSort dueAscend (tasks.filter (briefSelected now))
  if sel.isEmpty then
    ("You're all caught up! No tasks due today.", tasks)
  else
    ("Good morning! You have " ++ toString sel.length ++
       " tasks needing attention today:\n" ++
       String.join (sel.map (briefLine now)), tasks)

/-- C3.  The brief renders exactly the non-completed tasks whose due date
is at most 24h away (NULL due dates excluded), in ascending due-date
order; each line reads `- [priority] title (label)` with label `Overdue!`
iff the due date is before `now`; an empty selection yields the fixed
all-caught-up sentence instead. -/
theorem daily_brief_contract (now : Int) (tasks : List Task) :
    ∃ sel : List Task,
      sel.Perm (tasks.filter (fun t => decide (t.status ≠ "completed") &&
        (match t.due_date with
         | none => false
         | some d => decide (d ≤ now + 86400)))) ∧
      sel.Pairwise dueAscend ∧
      (∀ t ∈ sel, ∃ d, t.due_date = some d ∧ d ≤ now + 86400 ∧
        t.status ≠ "completed" ∧
        briefLine now t = "- [" ++ toString t.priority ++ "] " ++ t.title ++
          " (" ++ (if d < now then "Overdue!" else "Due today") ++ ")\n") ∧
      (get_daily_brief now tasks).1 =
        (if sel.isEmpty then "You're all caught up! No tasks due today."
         else "Good morning! You have " ++ toString sel.length ++
           " tasks needing attention today:\n" ++
           String.join (sel.map (briefLine now))) := by
  refine ⟨List.insertionSort dueAscend (tasks.filter (briefSelected now)),
    ?_, ?_, ?_, ?_⟩
  · exact List.perm_insertionSort dueAscend _
  · exact List.sorted_insertionSort dueAscend _
  · intro t ht
    have ht2 : t ∈ tasks.filter (briefSelected now) :=
      (List.perm_insertionSort dueAscend _).mem_iff.mp ht
    have hsel : briefSelected now t = true := (List.mem_filter.mp ht2).2
    unfold briefSelected at hsel
    rcases hdd : t.due_date with _ | d
    · rw [hdd] at hsel
      simp at hsel
    · rw [hdd] at hsel
      simp only [Bool.and_eq_true, decide_eq_true_eq] at hsel
      exact ⟨d, rfl, hsel.2, hsel.1, by simp [briefLine, hdd]⟩
  · by_cases h :
        (List.insertionSort dueAscend (tasks.filter (briefSelected now))).isEmpty = true <;>
      simp [get_daily_brief, h]

lemma get_daily_brief_snd (now : Int) (tasks : List Task) :
    (get_daily_brief now tasks).2 = tasks := by
  by_cases h :
      (List.insertionSort dueAscend (tasks.filter (briefSelected now))).isEmpty = true <;>
    simp [get_daily_brief, h]

/-! ### Report skill (`skills/reporter.py`, `generate_markdown_report`) -/

/-- The `status_emoji` dict lookup with default "📝".  The "overdue" entry
exists in the dict but no stored status ever equals "overdue". -/
def status_emoji (s : String) : String :=
  if s = "todo" then "📅"
  else if s = "in_progress" then "🚧"
  else if s = "completed" then "✅"
  else if s = "overdue" then "🚨"
  else "📝"

/-- `'⭐' * task.priority` (Python string repetition; a non-positive count
yields the empty string). -/
def stars (p : Int) : String := String.mk (List.replicate p.toNat '⭐')

def pad2 (n : Nat) : String := if n < 10 then "0" ++ toString n else toString n

/-- Civil date of a day count since 1970-01-01 (proleptic Gregorian, the
standard days-to-civil conversion), for `strftime "%Y-%m-%d %H:%M"`. -/
def civilFromDays (z0 : Int) : Int × Nat × Nat :=
  let z := z0 + 719468
  let era := Int.fdiv z 146097
  let doe := (z - era * 146097).toNat
  let yoe := (doe - doe / 1460 + doe / 36524 - doe / 146096) / 365
  let y : Int := (yoe : Int) + era * 400
  let doy := doe - (365 * yoe + yoe / 4 - yoe / 100)
  let mp := (5 * doy + 2) / 153
  let d := doy - (153 * mp + 2) / 5 + 1
  let m := if mp < 10 then mp + 3 else mp - 9
  (if m ≤ 2 then y + 1 else y, m, d)

/-- `task.due_date.strftime("%Y-%m-%d %H:%M")` on a seconds timestamp. -/
def formatTimestamp (ts : Int) : String :=
  let days := Int.fdiv ts 86400
  let secs := (ts - days * 86400).toNat
  let ymd := civilFromDays days
  toString ymd.1 ++ "-" ++ pad2 ymd.2.1 ++ "-" ++ pad2 ymd.2.2 ++ " " ++
    pad2 (secs / 3600) ++ ":" ++ pad2 (secs % 3600 / 60)

/-- The due-date cell: formatted timestamp, or the literal "No deadline". -/
def formatDue : Option Int → String
  | some d => formatTimestamp d
  | none => "No deadline"

/-- One table row:
`f"| {emoji} {task.status} | {stars} | {task.title} | {due} |"`. -/
def reportRow (t : Task) : String :=
  "| " ++ status_emoji t.status ++ " " ++ t.status ++ " | " ++
    stars t.priority ++ " | " ++ t.title ++ " | " ++ formatDue t.due_date ++ " |\n"

/-- The fixed text before the rows.  The source interpolates the `Session`
class object itself into the "Generated on" line — a placeholder, not a
time —, abbreviated to `Session` here; no claim depends on that line. -/
def reportHeaderText : String :=
  "# Task Management Report\n\nGenerated on: Session\n\n" ++
    "| Status | Priority | Title | Due Date |\n| --- | --- | --- | --- |\n"

/-- Due-date comparison inside one priority tier, NULLs last. -/
def dueNullsLastB : Option Int → Option Int → Bool
  | some x, some y => decide (x ≤ y)
  | _, none => true
  | none, some _ => false

/-- Modelled from the spec: the store's
`ORDER BY Task.priority DESC, Task.due_date ASC` (the database backend is
not under `src/`); per the spec, rows with a NULL due date sort last
within their priority tier. -/
def reportLeB (a b : Task) : Bool :=
  if a.priority = b.priority then dueNullsLastB a.due_date b.due_date
  else decide (b.priority < a.priority)

/-- `reportLeB` as a relation, for `List.insertionSort`. -/
def reportLe (a b : Task) : Prop := reportLeB a b = true

instance : DecidableRel reportLe :=
  fun a b => inferInstanceAs (Decidable (reportLeB a b = true))

lemma dueNullsLastB_total (u v : Option Int) :
    dueNullsLastB u v = true ∨ dueNullsLastB v u = true := by
  rcases u with _ | x <;> rcases v with _ | y <;> simp [dueNullsLastB] <;> omega

lemma dueNullsLastB_trans (u v w : Option Int)
    (huv : dueNullsLastB u v = true) (hvw : dueNullsLastB v w = true) :
    dueNullsLastB u w = true := by
  rcases u with _ | x <;> rcases v with _ | y <;> rcases w with _ | z <;>
    simp_all [dueNullsLastB] <;> omega

instance : IsTotal Task reportLe := by
  constructor
  intro a b
  unfold reportLe reportLeB
  by_cases h : a.priority = b.priority
  · rw [if_pos h, if_pos h.symm]
    exact dueNullsLastB_total _ _
  · rw [if_neg h, if_neg (fun hh => h hh.symm)]
    simp only [decide_eq_true_eq]
    omega

instance : IsTrans Task reportLe := by
  constructor
  intro a b c hab hbc
  unfold reportLe reportLeB at *
  by_cases h1 : a.priority = b.priority <;> by_cases h2 : b.priority = c.priority
  · rw [if_pos h1] at hab
    rw [if_pos h2] at hbc
    rw [if_pos (h1.trans h2)]
    exact dueNullsLastB_trans _ _ _ hab hbc
  · rw [if_neg h2] at hbc
    simp only [decide_eq_true_eq] at hbc
    rw [if_neg (by omega)]
    simp only [decide_eq_true_eq]
    omega
  · rw [if_neg h1] at hab
    simp only [decide_eq_true_eq] at hab
    rw [if_neg (by omega)]
    simp only [decide_eq_true_eq]
    omega
  · rw [if_neg h1] at hab
    rw [if_neg h2] at hbc
    simp only [decide_eq_true_eq] at hab hbc
    rw [if_neg (by omega)]
    simp only [decide_eq_true_eq]
    omega

/-- `generate_markdown_report`: the header text followed by one row per
stored task in the store's order; the store is not mutated. -/
def generate_markdown_report (tasks : List Task) : String × List Task :=
  (reportHeaderText ++
     String.join ((List.insertionSort reportLe tasks).map reportRow), tasks)

/-- C6.  The report renders one row for every task in the store, ordered
by priority descending and, within one priority tier, by due date
ascending with NULL due dates last (the spec-modelled store ordering). -/
theorem report_rows_ordered (tasks : List Task) :
    ∃ ord : List Task,
      ord.Perm tasks ∧
      ord.Pairwise (fun a b =>
        b.priority < a.priority ∨
          (a.priority = b.priority ∧
            match a.due_date, b.due_date with
            | some x, some y => x ≤ y
            | _, none => True
            | none, some _ => False)) ∧
      (generate_markdown_report tasks).1 =
        reportHeaderText ++ String.join (ord.map reportRow) := by
  refine ⟨List.insertionSort reportLe tasks, List.perm_insertionSort _ _, ?_, rfl⟩
  refine (List.sorted_insertionSort reportLe tasks).imp ?_
  intro a b hab
  unfold reportLe reportLeB at hab
  by_cases h : a.priority = b.priority
  · refine Or.inr ⟨h, ?_⟩
    rw [if_pos h] at hab
    rcases ha : a.due_date with _ | x <;> rcases hb : b.due_date with _ | y <;>
      rw [ha, hb] at hab <;> simp_all [dueNullsLastB]
  · rw [if_neg h] at hab
    simp only [decide_eq_true_eq] at hab
    exact Or.inl hab

/-! ### C5: does a prioritize write refresh `updated_at`? -/

/-- A non-completed task due one hour after the epoch, stored with
`updated_at = 0` (the shape of `test_priority_skill`). -/
def dueSoonTask : Task :=
  { id := 1, title := "Due soon", description := none, status := "todo",
    due_date := some 3600, priority := 1, created_at := 0, updated_at := 0 }

/-- C5 counterexample: at `now = 1000` prioritize changes the stored
priority of `dueSoonTask` from 1 to 5 — a persisted write — yet the
task's `updated_at` still reads its old value 0: the write does not
refresh the timestamp. -/
theorem prioritize_write_no_refresh_cex :
    (auto_prioritize_tasks 1000 [dueSoonTask]).1 = 1 ∧
    (auto_prioritize_tasks 1000 [dueSoonTask]).2.map Task.priority = [5] ∧
    (auto_prioritize_tasks 1000 [dueSoonTask]).2.map Task.updated_at = [0] ∧
    (auto_prioritize_tasks 1000 [dueSoonTask]).2.map Task.updated_at ≠ [1000] := by
  decide

/-- C5 (amended).  A prioritize write persists only the new priority:
`updated_at` is left exactly as stored for every task, changed or not
(`auto_prioritize_tasks` sets `task.priority` and nothing else; only the
PATCH endpoint refreshes `updated_at`). -/
theorem prioritize_preserves_updated_at (now : Int) (tasks : List Task) :
    (auto_prioritize_tasks now tasks).2.map Task.updated_at =
      tasks.map Task.updated_at := by
  rw [auto_prioritize_snd, List.map_map]
  refine List.map_congr_left fun t _ => ?_
  by_cases hs : t.status = "completed" <;>
    simp [Function.comp, prioritizeTask, hs]

/-! ### C8, C9: invariants and frame conditions across the skills -/

/-- C8.  If every stored priority lies in [1,5] then it still does after
each of the five skills: prioritize writes only 5, 4, 3 or the old value,
cleanup only removes rows, and search, the daily brief and the report do
not touch the store. -/
theorem skills_preserve_priority_range (now days_old : Int) (q : String)
    (tasks : List Task)
    (hinv : ∀ t ∈ tasks, 1 ≤ t.priority ∧ t.priority ≤ 5) :
    (∀ t ∈ (auto_prioritize_tasks now tasks).2, 1 ≤ t.priority ∧ t.priority ≤ 5) ∧
    (∀ t ∈ (archive_completed_tasks now days_old tasks).2,
      1 ≤ t.priority ∧ t.priority ≤ 5) ∧
    (∀ t ∈ (advanced_search q tasks).2, 1 ≤ t.priority ∧ t.priority ≤ 5) ∧
    (∀ t ∈ (get_daily_brief now tasks).2, 1 ≤ t.priority ∧ t.priority ≤ 5) ∧
    (∀ t ∈ (generate_markdown_report tasks).2, 1 ≤ t.priority ∧ t.priority ≤ 5) := by
  refine ⟨?_, ?_, ?_, ?_, ?_⟩
  · rw [auto_prioritize_snd]
    intro t2 ht2
    obtain ⟨t, ht, rfl⟩ := List.mem_map.mp ht2
    have hp := hinv t ht
    by_cases hs : t.status = "completed"
    · simpa [prioritizeTask, hs] using hp
    · simp only [prioritizeTask, if_neg hs]
      rcases hdd : t.due_date with _ | d
      · simpa [newPriority, hdd] using hp
      · simp only [newPriority, hdd]
        by_cases h1 : d - now < 86400
        · simp [h1]
        · by_cases h2 : d - now < 259200
          · simp [h1, h2]
          · by_cases h3 : d - now < 604800
            · simp [h1, h2, h3]
            · simp only [if_neg h1, if_neg h2, if_neg h3]
              exact hp
  · intro t ht
    exact hinv t (List.mem_filter.mp ht).1
  · intro t ht
    exact hinv t ht
  · intro t ht
    rw [get_daily_brief_snd] at ht
    exact hinv t ht
  · intro t ht
    exact hinv t ht

/-- Witness for C8 at a concrete single-task store within the range. -/
theorem skills_preserve_priority_range_witness :
    (∀ t ∈ (auto_prioritize_tasks 1000 [dueSoonTask]).2,
      1 ≤ t.priority ∧ t.priority ≤ 5) ∧
    (∀ t ∈ (archive_completed_tasks 1000 7 [dueSoonTask]).2,
      1 ≤ t.priority ∧ t.priority ≤ 5) ∧
    (∀ t ∈ (advanced_search "Milk" [dueSoonTask]).2,
      1 ≤ t.priority ∧ t.priority ≤ 5) ∧
    (∀ t ∈ (get_daily_brief 1000 [dueSoonTask]).2,
      1 ≤ t.priority ∧ t.priority ≤ 5) ∧
    (∀ t ∈ (generate_markdown_report [dueSoonTask]).2,
      1 ≤ t.priority ∧ t.priority ≤ 5) :=
  skills_preserve_priority_range 1000 7 "Milk" [dueSoonTask] (by decide)

/-- C9.  The daily brief and the report are read-only: after either call
the store holds exactly the records it held before, unchanged. -/
theorem brief_and_report_read_only (now : Int) (tasks : List Task) :
    (get_daily_brief now tasks).2 = tasks ∧
    (generate_markdown_report tasks).2 = tasks :=
  ⟨get_daily_brief_snd now tasks, rfl⟩

end TaskMgr
